import Mathlib

/-!
Verification of the coordination core of
`Telegram/SourceFiles/history/view/controls/history_view_compose_search.cpp`:
the dual-source result merger (`ApiSearch`), the result navigator
(`BottomBar`), the debouncing query input (`TopBar`) and the orchestrator
(`ComposeSearch::Inner`), embedded shallowly as pure state machines.

Message identifiers (`FullMsgId` in the source) are an abstract type `α`;
pagination tokens (`QString nextToken`) are `String`; C++ `int` is `Int`;
`PeerData*` sender filters are `Option Nat` (`none` = `nullptr`).
All handlers are single-threaded and synchronous in the source (rpl event
streams fire inline), so each handler is one pure function from state to
state plus the lists of signals, adapter commands and UI effects it fires,
in firing order.
-/

/-- Modelled from the spec: the struct `Api::FoundMessages` is declared in
`api/api_messages_search.h`, outside this translation unit.  Per the spec it
is `{ messages: ordered sequence of message identifiers, total: integer
(>= 0, or the unknown sentinel -1), nextToken: opaque continuation cursor }`;
a default-constructed value (used by `_concatedFound = {}` etc.) has no
messages, the unknown total `-1` and an empty token. -/
structure FoundMessages (α : Type) where
  messages : List α
  total : Int
  nextToken : String
deriving Repr, DecidableEq

/-- A default-constructed `Api::FoundMessages` (`{}` in the source). -/
def FoundMessages.empty {α : Type} : FoundMessages α :=
  { messages := [], total := -1, nextToken := "" }

/-- `struct SearchRequest { QString query; PeerData *from; }`.
`from` is a Lean keyword, so the field is named `fromPeer`. -/
structure SearchRequest where
  query : String
  fromPeer : Option Nat
deriving Repr, DecidableEq

/-- The signals `ApiSearch` can fire (`_newFounds`, `_nextFounds`). -/
inductive Signal
  | newFounds
  | nextFounds
deriving Repr, DecidableEq

/-- Calls issued to the two `Api::MessagesSearch` adapters
(`_apiSearch` = primary, `_migratedSearch` = migrated). -/
inductive Cmd
  | searchPrimary (r : SearchRequest)
  | searchMigrated (r : SearchRequest)
  | searchMorePrimary
  | searchMoreMigrated
deriving Repr, DecidableEq

namespace ApiSearch

/-- The mutable state of `ApiSearch`.  `migratedSearch` records whether
`_migratedSearch` was constructed (the history has a `migrateFrom()`);
the adapters themselves are external. -/
structure State (α : Type) where
  migratedSearch : Bool
  migratedFirstFound : FoundMessages α
  concatedFound : FoundMessages α
  waitingForTotal : Bool
  isFull : Bool
deriving Repr, DecidableEq

/-- State right after the `ApiSearch` constructor. -/
def init (α : Type) (migrated : Bool) : State α :=
  { migratedSearch := migrated
  , migratedFirstFound := FoundMessages.empty
  , concatedFound := FoundMessages.empty
  , waitingForTotal := false
  , isFull := false }

/-- `ApiSearch::addFound`: append `data.messages` onto
`_concatedFound.messages` (total and nextToken untouched). -/
def addFound {α : Type} (s : State α) (data : FoundMessages α) : State α :=
  { s with concatedFound :=
      { s.concatedFound with
          messages := s.concatedFound.messages ++ data.messages } }

/-- The `checkFull` lambda: if `data.total` equals the current size of
`_concatedFound.messages`, mark `_isFull` and fold in the held
`_migratedFirstFound` page. -/
def checkFull {α : Type} (s : State α) (data : FoundMessages α) : State α :=
  if data.total = (s.concatedFound.messages.length : Int) then
    addFound { s with isFull := true } s.migratedFirstFound
  else
    s

/-- The `checkWaitingForTotal` lambda: while `_waitingForTotal`, once both
totals are known (>= 0) sum them into `_concatedFound.total`, clear the
flag and fire `_newFounds`; when not waiting, fire `_newFounds` directly. -/
def checkWaitingForTotal {α : Type} (s : State α) : State α × List Signal :=
  if s.waitingForTotal then
    if 0 ≤ s.concatedFound.total ∧ 0 ≤ s.migratedFirstFound.total then
      ({ s with
          waitingForTotal := false
        , concatedFound :=
            { s.concatedFound with
                total := s.concatedFound.total + s.migratedFirstFound.total } },
       [Signal.newFounds])
    else
      (s, [])
  else
    (s, [Signal.newFounds])

/-- The handler subscribed to `_apiSearch.messagesFounds()`. -/
def onPrimaryFound {α : Type} (s : State α) (data : FoundMessages α) :
    State α × List Signal :=
  if data.nextToken = s.concatedFound.nextToken then
    (checkFull (addFound s data) data, [Signal.nextFounds])
  else
    checkWaitingForTotal (checkFull { s with concatedFound := data } data)

/-- The handler subscribed to `_migratedSearch->messagesFounds()`
(only wired when a migrated search exists). -/
def onMigratedFound {α : Type} (s : State α) (data : FoundMessages α) :
    State α × List Signal :=
  let s1 := if s.isFull then addFound s data else s
  if data.nextToken = s1.migratedFirstFound.nextToken then
    (s1, [Signal.nextFounds])
  else
    checkWaitingForTotal { s1 with migratedFirstFound := data }

/-- `ApiSearch::clear`: reset both accumulators to default-constructed
values.  Note that `_waitingForTotal` and `_isFull` are not touched. -/
def clear {α : Type} (s : State α) : State α :=
  { s with
      concatedFound := FoundMessages.empty
    , migratedFirstFound := FoundMessages.empty }

/-- `ApiSearch::search`: when a migrated search exists, set
`_waitingForTotal` and query it too; always query the primary adapter. -/
def search {α : Type} (s : State α) (r : SearchRequest) :
    State α × List Cmd :=
  if s.migratedSearch then
    ({ s with waitingForTotal := true },
     [Cmd.searchMigrated r, Cmd.searchPrimary r])
  else
    (s, [Cmd.searchPrimary r])

/-- `ApiSearch::searchMore`: delegate to the migrated adapter once full,
otherwise to the primary one. -/
def searchMore {α : Type} (s : State α) : List Cmd :=
  if s.migratedSearch && s.isFull then
    [Cmd.searchMoreMigrated]
  else
    [Cmd.searchMorePrimary]

/-- Messages are abstract to the merger (it never inspects them), so a
trace may tag each message with a provenance predicate `P`: `P m = true`
for messages served by the primary adapter, `P m = false` for messages
served by the migrated adapter.  `primaryLoaded` counts the loaded
primary messages (the `N` of the migrated-ordering property). -/
def primaryLoaded {α : Type} (P : α → Bool) (s : State α) : Int :=
  (s.concatedFound.messages.countP P : Int)

/-- Events driving an `ApiSearch` instance: method calls from its owner
and page arrivals from the two adapters. -/
inductive Event (α : Type)
  | search (r : SearchRequest)
  | clear
  | primary (d : FoundMessages α)
  | migrated (d : FoundMessages α)
  | more
deriving Repr, DecidableEq

/-- One event against an `ApiSearch`.  A migrated arrival when no migrated
search exists is impossible (the handler is not subscribed) and is a
no-op. -/
def stepEvent {α : Type} (s : State α) : Event α →
    State α × List Signal × List Cmd
  | Event.search r =>
      let p := search s r
      (p.1, [], p.2)
  | Event.clear => (clear s, [], [])
  | Event.primary d =>
      let p := onPrimaryFound s d
      (p.1, p.2, [])
  | Event.migrated d =>
      if s.migratedSearch then
        let p := onMigratedFound s d
        (p.1, p.2, [])
      else
        (s, [], [])
  | Event.more => (s, [], searchMore s)

/-- Run a sequence of events, concatenating fired signals and issued
adapter commands in order. -/
def runEvents {α : Type} (s : State α) :
    List (Event α) → State α × List Signal × List Cmd
  | [] => (s, [], [])
  | e :: es =>
      let p := stepEvent s e
      let q := runEvents p.1 es
      (q.1, p.2.1 ++ q.2.1, p.2.2 ++ q.2.2)

/-- The arrivals possible within one search whose first primary page was
`p0`: further primary pages are pagination continuations (their token
matches `p0`'s, the token the accumulator keeps for the whole search, and
they report the same primary total) and carry only primary-tagged
messages, while migrated arrivals are unconstrained pages of
migrated-tagged messages. -/
def withinSearchOf {α : Type} (P : α → Bool) (p0 : FoundMessages α) :
    Event α → Bool
  | Event.primary d =>
      (d.nextToken == p0.nextToken) && (d.total == p0.total)
        && d.messages.all P
  | Event.migrated d => d.messages.all (fun m => !(P m))
  | _ => false

/-- The inductive invariant behind the migrated-ordering property: the
accumulator keeps the search's token; while not full, only primary
messages are loaded; once full, at least the primary total of primary
messages is loaded; the held migrated page only carries migrated
messages. -/
def orderingInv {α : Type} (P : α → Bool) (p0 : FoundMessages α)
    (s : State α) : Prop :=
  s.concatedFound.nextToken = p0.nextToken
  ∧ (s.isFull = false → ∀ m ∈ s.concatedFound.messages, P m = true)
  ∧ (s.isFull = true → p0.total ≤ primaryLoaded P s)
  ∧ (∀ m ∈ s.migratedFirstFound.messages, P m = false)
  ∧ s.migratedSearch = true

end ApiSearch

namespace BottomBar

/-- The state of the result navigator: `int _total = -1` and the
`rpl::variable<int> _current = 0`. -/
structure State where
  total : Int
  current : Int
deriving Repr, DecidableEq

/-- Member initializers of `BottomBar`. -/
def init : State :=
  { total := -1, current := 0 }

/-- `BottomBar::setCurrent`: force-assign `_current`. -/
def setCurrent (s : State) (current : Int) : State :=
  { s with current := current }

/-- `BottomBar::setTotal`: store the total, then `setCurrent(1)`. -/
def setTotal (s : State) (total : Int) : State :=
  setCurrent { s with total := total } 1

/-- `(current <= 0) || (current >= _total)`: the forward button is made
transparent for mouse events (unclickable) in this state. -/
def nextDisabled (s : State) : Bool :=
  decide (s.current ≤ 0) || decide (s.total ≤ s.current)

/-- `(current <= 1)`: the backward button is unclickable in this state. -/
def prevDisabled (s : State) : Bool :=
  decide (s.current ≤ 1)

/-- A user click on the forward button: the click handler does
`_current = _current.current() + 1`, but a click cannot occur while the
button has `WA_TransparentForMouseEvents` set, so a disabled step is a
no-op. -/
def clickNext (s : State) : State :=
  if nextDisabled s then s else { s with current := s.current + 1 }

/-- A user click on the backward button (`_current - 1`), unreachable
while disabled. -/
def clickPrev (s : State) : State :=
  if prevDisabled s then s else { s with current := s.current - 1 }

/-- One step: `true` = forward click, `false` = backward click. -/
def step (s : State) (forward : Bool) : State :=
  if forward then clickNext s else clickPrev s

/-- A sequence of step clicks. -/
def runSteps (s : State) (ws : List Bool) : State :=
  ws.foldl step s

end BottomBar

namespace TopBar

/-- The query-input state: the text in `_select`, the `_from` variable,
the `_typedRequests` cache and whether `_searchTimer` is scheduled. -/
structure State where
  query : String
  fromPeer : Option Nat
  typedRequests : List SearchRequest
  timerActive : Bool
deriving Repr, DecidableEq

/-- Member initializers of `TopBar`. -/
def init : State :=
  { query := "", fromPeer := none, typedRequests := [], timerActive := false }

/-- `TopBar::requestSearch(cache)`: build the request from the current
query and `_from`, push it onto `_typedRequests` when `cache`, and fire
it on `_searchRequests`.  Returns the fired requests. -/
def requestSearch (s : State) (cache : Bool) :
    State × List SearchRequest :=
  let r : SearchRequest := { query := s.query, fromPeer := s.fromPeer }
  ({ s with typedRequests :=
      if cache then s.typedRequests ++ [r] else s.typedRequests },
   [r])

/-- `TopBar::requestSearchDelayed`: on a cache hit re-emit immediately
with `cache = false`; otherwise schedule `_searchTimer.callOnce`. -/
def requestSearchDelayed (s : State) : State × List SearchRequest :=
  if s.typedRequests.any
      (fun t => t.query == s.query && t.fromPeer == s.fromPeer) then
    requestSearch s false
  else
    ({ s with timerActive := true }, [])

/-- The `setQueryChangedCallback` handler: store the new text, then
`requestSearchDelayed` (the `_queryChanges` fire is a UI signal). -/
def queryChanged (s : State) (q : String) : State × List SearchRequest :=
  requestSearchDelayed { s with query := q }

/-- The `setSubmittedCallback` handler: `requestSearch()` with the
default `cache = true`. -/
def submitted (s : State) : State × List SearchRequest :=
  requestSearch s true

/-- The `_searchTimer` callback: `requestSearch()` with `cache = true`. -/
def timerFired (s : State) : State × List SearchRequest :=
  requestSearch { s with timerActive := false } true

end TopBar

/-- `_pendingJump.data`: a continuation token and a target index, with
default values `QString()` and `-1`. -/
structure PendingData where
  token : String
  index : Int
deriving Repr, DecidableEq

namespace Inner

/-- The orchestrator state (`ComposeSearch::Inner`): the merger, the
navigator and the pending-jump record.  The browsing list mirrors the
merger's messages and is out of scope (visual). -/
structure State (α : Type) where
  api : ApiSearch.State α
  bar : BottomBar.State
  pendingData : PendingData
deriving Repr, DecidableEq

/-- State right after the `Inner` constructor. -/
def init (α : Type) (migrated : Bool) : State α :=
  { api := ApiSearch.init α migrated
  , bar := BottomBar.init
  , pendingData := { token := "", index := -1 } }

/-- The effects of processing one orchestrator event: the new state, the
adapter commands issued, the `goToMessage` navigations performed (the
message identifiers navigated to) and the indices fired on
`_pendingJump.jumps`, each in order. -/
structure Out (α : Type) where
  state : State α
  cmds : List Cmd
  navs : List α
  jumps : List Int
deriving Repr, DecidableEq

/-- The handler of merged navigation intents (`_pendingJump.jumps`
filtered to indices >= 0, merged with `_bottomBar->showItemRequests()`):
possibly `searchMore`, then either record a pending jump (index out of
range) or clear the record and navigate to `messages[index]`. -/
def handleNav {α : Type} (s : State α) (index : Int) : Out α :=
  let msgs := s.api.concatedFound.messages
  let size : Int := (msgs.length : Int)
  let cmds :=
    if size - 1 ≤ index ∧ size ≠ s.api.concatedFound.total then
      ApiSearch.searchMore s.api
    else
      []
  if size ≤ index ∨ index < 0 then
    { state :=
        { s with pendingData :=
            { token := s.api.concatedFound.nextToken, index := index } }
    , cmds := cmds, navs := [], jumps := [] }
  else
    { state := { s with pendingData := { token := "", index := -1 } }
    , cmds := cmds
    , navs := (msgs[index.toNat]?).toList
    , jumps := [] }

/-- The `newFounds` handler: `setTotal` on the navigator.  `setTotal`
calls `setCurrent(1)`, whose `_current.force_assign` fires
`_current.changes()` unconditionally, and `showItemRequests()` is that
stream mapped by `- 1` — so every `newFounds` synchronously runs the
merged navigation handler at index 0 on the already-updated merger
state.  Afterwards the browser rows are replaced (visual, omitted). -/
def handleNewFounds {α : Type} (s : State α) : Out α :=
  handleNav
    { s with bar := BottomBar.setTotal s.bar s.api.concatedFound.total } 0

/-- The `nextFounds` handler: when the recorded token matches the
accumulator's current token, fire the recorded index on
`_pendingJump.jumps`; the merged intent handler then runs synchronously
for indices >= 0 (the stream is filtered).  Then rows are appended
(visual, omitted). -/
def handleNextFounds {α : Type} (s : State α) : Out α :=
  if s.pendingData.token = s.api.concatedFound.nextToken then
    let fired := s.pendingData.index
    if 0 ≤ fired then
      let o := handleNav s fired
      { o with jumps := fired :: o.jumps }
    else
      { state := s, cmds := [], navs := [], jumps := [fired] }
  else
    { state := s, cmds := [], navs := [], jumps := [] }

/-- Dispatch the (at most one) signal fired by a merger step. -/
def processSignals {α : Type} (s : State α) : List Signal → Out α
  | [] => { state := s, cmds := [], navs := [], jumps := [] }
  | Signal.newFounds :: rest =>
      let o := handleNewFounds s
      let o2 := processSignals o.state rest
      { state := o2.state
      , cmds := o.cmds ++ o2.cmds
      , navs := o.navs ++ o2.navs
      , jumps := o.jumps ++ o2.jumps }
  | Signal.nextFounds :: rest =>
      let o := handleNextFounds s
      let o2 := processSignals o.state rest
      { state := o2.state
      , cmds := o.cmds ++ o2.cmds
      , navs := o.navs ++ o2.navs
      , jumps := o.jumps ++ o2.jumps }

/-- Events reaching the orchestrator: a `SearchRequest` from the top bar,
a navigation intent carrying a target index, and page arrivals on the two
adapter streams. -/
inductive Ev (α : Type)
  | searchReq (r : SearchRequest)
  | nav (i : Int)
  | primary (d : FoundMessages α)
  | migrated (d : FoundMessages α)
deriving Repr, DecidableEq

/-- One orchestrator event.  The `searchRequests` handler drops a request
with an empty query and no sender filter; otherwise it clears and
restarts the merger.  Page arrivals step the merger, then its signals are
dispatched. -/
def stepEv {α : Type} (s : State α) : Ev α → Out α
  | Ev.searchReq r =>
      if r.query = "" ∧ r.fromPeer = none then
        { state := s, cmds := [], navs := [], jumps := [] }
      else
        let p := ApiSearch.search (ApiSearch.clear s.api) r
        { state := { s with api := p.1 }, cmds := p.2, navs := [], jumps := [] }
  | Ev.nav i => handleNav s i
  | Ev.primary d =>
      let p := ApiSearch.onPrimaryFound s.api d
      processSignals { s with api := p.1 } p.2
  | Ev.migrated d =>
      if s.api.migratedSearch then
        let p := ApiSearch.onMigratedFound s.api d
        processSignals { s with api := p.1 } p.2
      else
        { state := s, cmds := [], navs := [], jumps := [] }

/-- Run a sequence of orchestrator events, concatenating effects. -/
def runEv {α : Type} (s : State α) : List (Ev α) → Out α
  | [] => { state := s, cmds := [], navs := [], jumps := [] }
  | e :: es =>
      let o := stepEv s e
      let o2 := runEv o.state es
      { state := o2.state
      , cmds := o.cmds ++ o2.cmds
      , navs := o.navs ++ o2.navs
      , jumps := o.jumps ++ o2.jumps }

end Inner

namespace ApiSearch

theorem addFound_migratedSearch {α : Type} (s : State α) (d : FoundMessages α) :
    (addFound s d).migratedSearch = s.migratedSearch := rfl

theorem addFound_migratedFirstFound {α : Type} (s : State α) (d : FoundMessages α) :
    (addFound s d).migratedFirstFound = s.migratedFirstFound := rfl

theorem addFound_waitingForTotal {α : Type} (s : State α) (d : FoundMessages α) :
    (addFound s d).waitingForTotal = s.waitingForTotal := rfl

theorem addFound_isFull {α : Type} (s : State α) (d : FoundMessages α) :
    (addFound s d).isFull = s.isFull := rfl

theorem addFound_total {α : Type} (s : State α) (d : FoundMessages α) :
    (addFound s d).concatedFound.total = s.concatedFound.total := rfl

theorem addFound_nextToken {α : Type} (s : State α) (d : FoundMessages α) :
    (addFound s d).concatedFound.nextToken = s.concatedFound.nextToken := rfl

theorem addFound_messages {α : Type} (s : State α) (d : FoundMessages α) :
    (addFound s d).concatedFound.messages
      = s.concatedFound.messages ++ d.messages := rfl

theorem checkFull_migratedSearch {α : Type} (s : State α) (d : FoundMessages α) :
    (checkFull s d).migratedSearch = s.migratedSearch := by
  unfold checkFull; split <;> rfl

theorem checkFull_migratedFirstFound {α : Type} (s : State α) (d : FoundMessages α) :
    (checkFull s d).migratedFirstFound = s.migratedFirstFound := by
  unfold checkFull; split <;> rfl

theorem checkFull_waitingForTotal {α : Type} (s : State α) (d : FoundMessages α) :
    (checkFull s d).waitingForTotal = s.waitingForTotal := by
  unfold checkFull; split <;> rfl

theorem checkFull_total {α : Type} (s : State α) (d : FoundMessages α) :
    (checkFull s d).concatedFound.total = s.concatedFound.total := by
  unfold checkFull; split <;> rfl

theorem checkFull_nextToken {α : Type} (s : State α) (d : FoundMessages α) :
    (checkFull s d).concatedFound.nextToken = s.concatedFound.nextToken := by
  unfold checkFull; split <;> rfl

theorem checkFull_messages_append {α : Type} (s : State α) (d : FoundMessages α) :
    ∃ t, (checkFull s d).concatedFound.messages
      = s.concatedFound.messages ++ t := by
  unfold checkFull; split
  · exact ⟨s.migratedFirstFound.messages, rfl⟩
  · exact ⟨[], by simp⟩

theorem checkWaitingForTotal_messages {α : Type} (s : State α) :
    (checkWaitingForTotal s).1.concatedFound.messages
      = s.concatedFound.messages := by
  unfold checkWaitingForTotal
  split
  · split <;> rfl
  · rfl

theorem checkWaitingForTotal_nextToken {α : Type} (s : State α) :
    (checkWaitingForTotal s).1.concatedFound.nextToken
      = s.concatedFound.nextToken := by
  unfold checkWaitingForTotal
  split
  · split <;> rfl
  · rfl

theorem checkWaitingForTotal_isFull {α : Type} (s : State α) :
    (checkWaitingForTotal s).1.isFull = s.isFull := by
  unfold checkWaitingForTotal
  split
  · split <;> rfl
  · rfl

theorem checkWaitingForTotal_migratedFirstFound {α : Type} (s : State α) :
    (checkWaitingForTotal s).1.migratedFirstFound = s.migratedFirstFound := by
  unfold checkWaitingForTotal
  split
  · split <;> rfl
  · rfl

theorem checkWaitingForTotal_migratedSearch {α : Type} (s : State α) :
    (checkWaitingForTotal s).1.migratedSearch = s.migratedSearch := by
  unfold checkWaitingForTotal
  split
  · split <;> rfl
  · rfl

theorem onPrimaryFound_matching {α : Type} (s : State α) (d : FoundMessages α)
    (h : d.nextToken = s.concatedFound.nextToken) :
    onPrimaryFound s d = (checkFull (addFound s d) d, [Signal.nextFounds]) := by
  simp [onPrimaryFound, h]

end ApiSearch

/-- C9: a search request whose query text is empty and whose sender
filter is absent is silently suppressed by the orchestrator's
`searchRequests` handler: the state (including the merger's accumulated
results) is unchanged and no adapter command, navigation or jump is
issued. -/
theorem c9_empty_search_suppressed {α : Type} (s : Inner.State α) :
    Inner.stepEv s (Inner.Ev.searchReq { query := "", fromPeer := none })
      = { state := s, cmds := [], navs := [], jumps := [] } := by
  simp [Inner.stepEv]

/-- C10: a search request with empty query text but a non-null sender
filter is treated as a real search: the merger is cleared and restarted,
leaving both accumulators empty, and the remote search is issued to the
primary adapter (and to the migrated one when configured). -/
theorem c10_empty_query_with_sender_is_real {α : Type} (s : Inner.State α)
    (p : Nat) :
    let r : SearchRequest := { query := "", fromPeer := some p }
    let o := Inner.stepEv s (Inner.Ev.searchReq r)
    o.state.api = (ApiSearch.search (ApiSearch.clear s.api) r).1
    ∧ o.state.api.concatedFound = FoundMessages.empty
    ∧ o.state.api.migratedFirstFound = FoundMessages.empty
    ∧ o.cmds = (if s.api.migratedSearch then
          [Cmd.searchMigrated r, Cmd.searchPrimary r]
        else
          [Cmd.searchPrimary r]) := by
  by_cases h : s.api.migratedSearch <;>
    simp [Inner.stepEv, ApiSearch.search, ApiSearch.clear, h]

/-- C3 counterexample: after a search whose first primary page made the
primary source full, issuing a new search request (`clear()` followed by
`search()`) leaves `_isFull` still set even though both accumulators were
reset — fullness is NOT "no longer marked", refuting the claim. -/
theorem c3_full_flag_survives_reset :
    ((ApiSearch.runEvents (ApiSearch.init Nat true)
        [ApiSearch.Event.search { query := "a", fromPeer := none },
         ApiSearch.Event.primary { messages := [0], total := 1, nextToken := "t1" },
         ApiSearch.Event.clear,
         ApiSearch.Event.search { query := "b", fromPeer := none }]).1.isFull
      = true)
    ∧ ((ApiSearch.runEvents (ApiSearch.init Nat true)
        [ApiSearch.Event.search { query := "a", fromPeer := none },
         ApiSearch.Event.primary { messages := [0], total := 1, nextToken := "t1" },
         ApiSearch.Event.clear,
         ApiSearch.Event.search { query := "b", fromPeer := none }]).1.concatedFound
      = FoundMessages.empty) := by
  constructor <;> rfl

/-- C3 (amended): issuing a new search request (`clear` then `search`)
resets both the accumulated combined state and the held migrated page to
default-constructed values, sets `waitingForTotal` when a migrated source
exists (otherwise it keeps its previous value), leaves `_isFull`
unchanged (it is never reset), and issues the request to both sources
when a migrated source exists, otherwise just to the primary. -/
theorem c3_new_search_resets {α : Type} (s : ApiSearch.State α)
    (r : SearchRequest) :
    (ApiSearch.search (ApiSearch.clear s) r).1.concatedFound
        = FoundMessages.empty
    ∧ (ApiSearch.search (ApiSearch.clear s) r).1.migratedFirstFound
        = FoundMessages.empty
    ∧ (ApiSearch.search (ApiSearch.clear s) r).1.isFull = s.isFull
    ∧ (ApiSearch.search (ApiSearch.clear s) r).1.waitingForTotal
        = (s.migratedSearch || s.waitingForTotal)
    ∧ (ApiSearch.search (ApiSearch.clear s) r).2
        = (if s.migratedSearch then
            [Cmd.searchMigrated r, Cmd.searchPrimary r]
          else
            [Cmd.searchPrimary r]) := by
  by_cases h : s.migratedSearch <;>
    simp [ApiSearch.search, ApiSearch.clear, h]

/-- C4 counterexample: `setTotal(0)` from the initial navigator state
sets `current` to 1, not 0, so `current` exceeds the total 0 and the
claimed invariant `0 <= current <= total` fails. -/
theorem c4_setTotal_zero_counterexample :
    (BottomBar.setTotal BottomBar.init 0).current = 1
    ∧ (BottomBar.setTotal BottomBar.init 0).total = 0
    ∧ ¬((BottomBar.setTotal BottomBar.init 0).current
        ≤ (BottomBar.setTotal BottomBar.init 0).total) := by
  refine ⟨rfl, rfl, ?_⟩
  decide

theorem bottomBar_step_invariant (n : Int) (s : BottomBar.State) (w : Bool)
    (ht : s.total = n) (h1 : 1 ≤ s.current) (h2 : s.current ≤ max n 1) :
    (BottomBar.step s w).total = n
    ∧ 1 ≤ (BottomBar.step s w).current
    ∧ (BottomBar.step s w).current ≤ max n 1 := by
  cases w <;>
    simp only [BottomBar.step, BottomBar.clickNext, BottomBar.clickPrev,
      BottomBar.nextDisabled, BottomBar.prevDisabled, Bool.or_eq_true,
      decide_eq_true_eq, if_true, if_false, Bool.false_eq_true] <;>
    split <;> simp_all <;> omega

theorem bottomBar_runSteps_invariant (n : Int) (ws : List Bool)
    (s : BottomBar.State) (ht : s.total = n) (h1 : 1 ≤ s.current)
    (h2 : s.current ≤ max n 1) :
    (BottomBar.runSteps s ws).total = n
    ∧ 1 ≤ (BottomBar.runSteps s ws).current
    ∧ (BottomBar.runSteps s ws).current ≤ max n 1 := by
  induction ws generalizing s with
  | nil => exact ⟨ht, h1, h2⟩
  | cons w ws ih =>
      obtain ⟨a, b, c⟩ := bottomBar_step_invariant n s w ht h1 h2
      exact ih (BottomBar.step s w) a b c

/-- C4 (amended): `setTotal(n)` always re-selects position 1, even for
`n = 0`; thereafter, under any sequence of step clicks, the current
position satisfies `1 <= current <= max n 1` (so `current <= total` holds
whenever `total >= 1`); a forward click is a no-op when
`current = total`, and a backward click is a no-op when `current <= 1`. -/
theorem c4_navigation_bounds (n : Int) (hn : 0 ≤ n) (ws : List Bool) :
    (BottomBar.setTotal BottomBar.init n).current = 1
    ∧ 1 ≤ (BottomBar.runSteps (BottomBar.setTotal BottomBar.init n) ws).current
    ∧ (BottomBar.runSteps (BottomBar.setTotal BottomBar.init n) ws).current
        ≤ max n 1
    ∧ (∀ s : BottomBar.State, s.current = s.total →
        BottomBar.clickNext s = s)
    ∧ (∀ s : BottomBar.State, s.current ≤ 1 → BottomBar.clickPrev s = s) := by
  obtain ⟨a, b, c⟩ :=
    bottomBar_runSteps_invariant n ws (BottomBar.setTotal BottomBar.init n)
      rfl (le_refl 1)
      (by simp [BottomBar.setTotal, BottomBar.setCurrent])
  refine ⟨rfl, b, c, ?_, ?_⟩
  · intro s h
    simp [BottomBar.clickNext, BottomBar.nextDisabled, h]
  · intro s h
    simp [BottomBar.clickPrev, BottomBar.prevDisabled, h]

/-- C4 witness: the amended bounds at `n = 3` after stepping forward
four times. -/
theorem c4_navigation_bounds_witness :
    (BottomBar.setTotal BottomBar.init 3).current = 1
    ∧ 1 ≤ (BottomBar.runSteps (BottomBar.setTotal BottomBar.init 3)
        [true, true, true, true]).current
    ∧ (BottomBar.runSteps (BottomBar.setTotal BottomBar.init 3)
        [true, true, true, true]).current ≤ max 3 1
    ∧ (∀ s : BottomBar.State, s.current = s.total →
        BottomBar.clickNext s = s)
    ∧ (∀ s : BottomBar.State, s.current ≤ 1 → BottomBar.clickPrev s = s) :=
  c4_navigation_bounds 3 (by decide) [true, true, true, true]

/-- C1: starting a fresh search, once the primary total `Tp` and the
migrated total `Tm` are both known (each >= 0, each arriving as a fresh
search result, i.e. with a continuation token differing from the cleared
accumulator's empty token), the combined total equals `Tp + Tm` in either
arrival order and `_newFounds` fires; with no migrated source configured,
the combined total equals `Tp` as soon as the primary result arrives, and
`_newFounds` fires. -/
theorem c1_total_correctness {α : Type} (r : SearchRequest)
    (dp dm : FoundMessages α)
    (hp : 0 ≤ dp.total) (hm : 0 ≤ dm.total)
    (htp : dp.nextToken ≠ "") (htm : dm.nextToken ≠ "") :
    let runA := ApiSearch.runEvents (ApiSearch.init α true)
      [ApiSearch.Event.clear, ApiSearch.Event.search r,
       ApiSearch.Event.primary dp, ApiSearch.Event.migrated dm]
    let runB := ApiSearch.runEvents (ApiSearch.init α true)
      [ApiSearch.Event.clear, ApiSearch.Event.search r,
       ApiSearch.Event.migrated dm, ApiSearch.Event.primary dp]
    let runC := ApiSearch.runEvents (ApiSearch.init α false)
      [ApiSearch.Event.clear, ApiSearch.Event.search r,
       ApiSearch.Event.primary dp]
    (runA.1.concatedFound.total = dp.total + dm.total
      ∧ Signal.newFounds ∈ runA.2.1)
    ∧ (runB.1.concatedFound.total = dp.total + dm.total
      ∧ Signal.newFounds ∈ runB.2.1)
    ∧ (runC.1.concatedFound.total = dp.total
      ∧ Signal.newFounds ∈ runC.2.1) := by
  by_cases hf : dp.total = (dp.messages.length : Int) <;>
    simp [ApiSearch.runEvents, ApiSearch.stepEvent, ApiSearch.init,
      ApiSearch.clear, ApiSearch.search, ApiSearch.onPrimaryFound,
      ApiSearch.onMigratedFound, ApiSearch.checkFull, ApiSearch.addFound,
      ApiSearch.checkWaitingForTotal, FoundMessages.empty,
      hp, hm, htp, htm, hf]

/-- C1 witness. -/
theorem c1_total_correctness_witness :
    let dp : FoundMessages Nat := { messages := [1, 2], total := 5, nextToken := "tp" }
    let dm : FoundMessages Nat := { messages := [9], total := 3, nextToken := "tm" }
    let r : SearchRequest := { query := "a", fromPeer := none }
    let runA := ApiSearch.runEvents (ApiSearch.init Nat true)
      [ApiSearch.Event.clear, ApiSearch.Event.search r,
       ApiSearch.Event.primary dp, ApiSearch.Event.migrated dm]
    let runB := ApiSearch.runEvents (ApiSearch.init Nat true)
      [ApiSearch.Event.clear, ApiSearch.Event.search r,
       ApiSearch.Event.migrated dm, ApiSearch.Event.primary dp]
    let runC := ApiSearch.runEvents (ApiSearch.init Nat false)
      [ApiSearch.Event.clear, ApiSearch.Event.search r,
       ApiSearch.Event.primary dp]
    (runA.1.concatedFound.total = 5 + 3
      ∧ Signal.newFounds ∈ runA.2.1)
    ∧ (runB.1.concatedFound.total = 5 + 3
      ∧ Signal.newFounds ∈ runB.2.1)
    ∧ (runC.1.concatedFound.total = 5
      ∧ Signal.newFounds ∈ runC.2.1) :=
  c1_total_correctness { query := "a", fromPeer := none }
    { messages := [1, 2], total := 5, nextToken := "tp" }
    { messages := [9], total := 3, nextToken := "tm" }
    (by decide) (by decide) (by decide) (by decide)

theorem runPrimary_matching_append {α : Type} (s : ApiSearch.State α)
    (ds : List (FoundMessages α))
    (h : ∀ d ∈ ds, d.nextToken = s.concatedFound.nextToken) :
    ∃ t,
      (ApiSearch.runEvents s (ds.map ApiSearch.Event.primary)).1.concatedFound.messages
          = s.concatedFound.messages ++ t
      ∧ (ApiSearch.runEvents s (ds.map ApiSearch.Event.primary)).1.concatedFound.nextToken
          = s.concatedFound.nextToken := by
  induction ds generalizing s with
  | nil => exact ⟨[], by simp [ApiSearch.runEvents], rfl⟩
  | cons d ds ih =>
      have hd : d.nextToken = s.concatedFound.nextToken :=
        h d (List.mem_cons_self d ds)
      have hstep : (ApiSearch.stepEvent s (ApiSearch.Event.primary d)).1
          = ApiSearch.checkFull (ApiSearch.addFound s d) d := by
        simp [ApiSearch.stepEvent, ApiSearch.onPrimaryFound_matching s d hd]
      have htok : (ApiSearch.stepEvent s (ApiSearch.Event.primary d)).1.concatedFound.nextToken
          = s.concatedFound.nextToken := by
        rw [hstep, ApiSearch.checkFull_nextToken, ApiSearch.addFound_nextToken]
      obtain ⟨t0, ht0⟩ :=
        ApiSearch.checkFull_messages_append (ApiSearch.addFound s d) d
      obtain ⟨t2, ht2, ht2tok⟩ :=
        ih (ApiSearch.stepEvent s (ApiSearch.Event.primary d)).1
          (fun d' hd' => by rw [htok]; exact h d' (List.mem_cons_of_mem d hd'))
      refine ⟨d.messages ++ t0 ++ t2, ?_, ?_⟩
      · show (ApiSearch.runEvents (ApiSearch.stepEvent s (ApiSearch.Event.primary d)).1
            (ds.map ApiSearch.Event.primary)).1.concatedFound.messages = _
        rw [ht2, hstep, ht0, ApiSearch.addFound_messages]
        simp [List.append_assoc]
      · show (ApiSearch.runEvents (ApiSearch.stepEvent s (ApiSearch.Event.primary d)).1
            (ds.map ApiSearch.Event.primary)).1.concatedFound.nextToken = _
        rw [ht2tok, htok]

/-- C7: for any sequence of primary page arrivals whose continuation
token matches the accumulator's current token (which appending never
changes), the combined message sequence only grows by appending at the
end: the old sequence is a prefix of the new one, its length is
non-decreasing, and every previously-present entry keeps its position and
identity. -/
theorem c7_monotonic_growth {α : Type} (s : ApiSearch.State α)
    (ds : List (FoundMessages α))
    (h : ∀ d ∈ ds, d.nextToken = s.concatedFound.nextToken) :
    (∃ t,
      (ApiSearch.runEvents s (ds.map ApiSearch.Event.primary)).1.concatedFound.messages
        = s.concatedFound.messages ++ t)
    ∧ s.concatedFound.messages.length
        ≤ (ApiSearch.runEvents s (ds.map ApiSearch.Event.primary)).1.concatedFound.messages.length
    ∧ ∀ k, k < s.concatedFound.messages.length →
        (ApiSearch.runEvents s (ds.map ApiSearch.Event.primary)).1.concatedFound.messages[k]?
          = s.concatedFound.messages[k]? := by
  obtain ⟨t, ht, -⟩ := runPrimary_matching_append s ds h
  refine ⟨⟨t, ht⟩, ?_, ?_⟩
  · rw [ht]; simp
  · intro k hk
    rw [ht]
    exact List.getElem?_append_left hk

/-- C7 witness. -/
theorem c7_monotonic_growth_witness :
    let s : ApiSearch.State Nat :=
      { migratedSearch := false
      , migratedFirstFound := FoundMessages.empty
      , concatedFound := { messages := [4, 5], total := 9, nextToken := "t" }
      , waitingForTotal := false
      , isFull := false }
    let ds : List (FoundMessages Nat) :=
      [{ messages := [6], total := 9, nextToken := "t" },
       { messages := [7, 8], total := 9, nextToken := "t" }]
    (∃ t,
      (ApiSearch.runEvents s (ds.map ApiSearch.Event.primary)).1.concatedFound.messages
        = s.concatedFound.messages ++ t)
    ∧ s.concatedFound.messages.length
        ≤ (ApiSearch.runEvents s (ds.map ApiSearch.Event.primary)).1.concatedFound.messages.length
    ∧ ∀ k, k < s.concatedFound.messages.length →
        (ApiSearch.runEvents s (ds.map ApiSearch.Event.primary)).1.concatedFound.messages[k]?
          = s.concatedFound.messages[k]? :=
  c7_monotonic_growth _ _ (by decide)

/-- C8: typing a (query, from) pair equal by value to a previously
submitted pair re-emits the search request immediately and synchronously
(`requestSearch(false)`), without touching the timer and without adding a
cache entry; a pair not in the cache emits nothing immediately (only the
timer is scheduled), and fires only via the timer callback or an explicit
submit, both of which emit the current pair. -/
theorem c8_debounce_cache (s : TopBar.State) (q : String) :
    ((∃ t ∈ s.typedRequests, t.query = q ∧ t.fromPeer = s.fromPeer) →
      TopBar.queryChanged s q
        = ({ s with query := q },
           [{ query := q, fromPeer := s.fromPeer }]))
    ∧ ((∀ t ∈ s.typedRequests, ¬(t.query = q ∧ t.fromPeer = s.fromPeer)) →
      TopBar.queryChanged s q
        = ({ s with query := q, timerActive := true }, []))
    ∧ (TopBar.submitted s).2 = [{ query := s.query, fromPeer := s.fromPeer }]
    ∧ (TopBar.timerFired s).2
        = [{ query := s.query, fromPeer := s.fromPeer }] := by
  refine ⟨?_, ?_, rfl, rfl⟩
  · rintro ⟨t, ht, h1, h2⟩
    have hcond : s.typedRequests.any
        (fun t => t.query == q && t.fromPeer == s.fromPeer) = true :=
      List.any_eq_true.mpr ⟨t, ht, by simp [h1, h2]⟩
    simp [TopBar.queryChanged, TopBar.requestSearchDelayed,
      TopBar.requestSearch, hcond]
  · intro hall
    have hcond : s.typedRequests.any
        (fun t => t.query == q && t.fromPeer == s.fromPeer) = false := by
      rw [← Bool.not_eq_true, List.any_eq_true]
      rintro ⟨t, ht, hb⟩
      simp only [Bool.and_eq_true, beq_iff_eq] at hb
      exact hall t ht hb
    simp [TopBar.queryChanged, TopBar.requestSearchDelayed, hcond]

/-- C8 witness. -/
theorem c8_debounce_cache_witness :
    let s : TopBar.State :=
      { query := "ab", fromPeer := none
      , typedRequests := [{ query := "abc", fromPeer := none }]
      , timerActive := false }
    TopBar.queryChanged s "abc"
      = ({ s with query := "abc" },
         [{ query := "abc", fromPeer := none }]) :=
  (c8_debounce_cache
      { query := "ab", fromPeer := none
      , typedRequests := [{ query := "abc", fromPeer := none }]
      , timerActive := false } "abc").1
    ⟨{ query := "abc", fromPeer := none }, by simp, rfl, rfl⟩

theorem handleNav_jumps_nil {α : Type} (s : Inner.State α) (i : Int) :
    (Inner.handleNav s i).jumps = [] := by
  simp only [Inner.handleNav]
  split <;> rfl

theorem handleNav_out_of_range {α : Type} (s : Inner.State α) (i : Int)
    (h1 : (s.api.concatedFound.messages.length : Int) ≤ i) :
    Inner.handleNav s i =
      { state := { s with pendingData :=
          { token := s.api.concatedFound.nextToken, index := i } }
      , cmds :=
          if (s.api.concatedFound.messages.length : Int) - 1 ≤ i
              ∧ (s.api.concatedFound.messages.length : Int)
                  ≠ s.api.concatedFound.total then
            ApiSearch.searchMore s.api
          else []
      , navs := [], jumps := [] } := by
  simp only [Inner.handleNav]
  rw [if_pos (Or.inl h1)]

/-- C6: a navigation intent for index `i` at or beyond the loaded count
and below the known total issues exactly one fetch-more call
(`searchMore`, a single adapter command) and records the pending jump
keyed to the accumulator's current continuation token; on the next
primary page arrival whose token matches that recorded token, the intent
for `i` is re-fired on `_pendingJump.jumps` exactly once. -/
theorem c6_pending_jump_resolution {α : Type} (s : Inner.State α) (i : Int)
    (h1 : (s.api.concatedFound.messages.length : Int) ≤ i)
    (h2 : i < s.api.concatedFound.total) :
    (Inner.stepEv s (Inner.Ev.nav i)).state
        = { s with pendingData :=
            { token := s.api.concatedFound.nextToken, index := i } }
    ∧ (Inner.stepEv s (Inner.Ev.nav i)).cmds = ApiSearch.searchMore s.api
    ∧ (ApiSearch.searchMore s.api).length = 1
    ∧ (Inner.stepEv s (Inner.Ev.nav i)).navs = []
    ∧ (Inner.stepEv s (Inner.Ev.nav i)).jumps = []
    ∧ ∀ d : FoundMessages α, d.nextToken = s.api.concatedFound.nextToken →
        (Inner.stepEv
          { s with pendingData :=
              { token := s.api.concatedFound.nextToken, index := i } }
          (Inner.Ev.primary d)).jumps = [i] := by
  have hcond : (s.api.concatedFound.messages.length : Int) - 1 ≤ i
      ∧ (s.api.concatedFound.messages.length : Int)
          ≠ s.api.concatedFound.total := by
    constructor <;> omega
  have hmore : (ApiSearch.searchMore s.api).length = 1 := by
    unfold ApiSearch.searchMore
    split <;> rfl
  have hnav := handleNav_out_of_range s i h1
  have h0 : (0 : Int) ≤ i := le_trans (Int.natCast_nonneg _) h1
  refine ⟨?_, ?_, hmore, ?_, ?_, ?_⟩
  · show (Inner.handleNav s i).state = _
    rw [hnav]
  · show (Inner.handleNav s i).cmds = _
    rw [hnav]
    simp only [if_pos hcond]
  · show (Inner.handleNav s i).navs = _
    rw [hnav]
  · show (Inner.handleNav s i).jumps = _
    rw [hnav]
  · intro d hd
    simp only [Inner.stepEv]
    rw [ApiSearch.onPrimaryFound_matching s.api d hd]
    simp only [Inner.processSignals, Inner.handleNextFounds,
      ApiSearch.checkFull_nextToken, ApiSearch.addFound_nextToken]
    simp [h0, handleNav_jumps_nil]

/-- C6 witness. -/
theorem c6_pending_jump_resolution_witness :
    let s : Inner.State Nat :=
      { api :=
          { migratedSearch := false
          , migratedFirstFound := FoundMessages.empty
          , concatedFound := { messages := [10, 11, 12], total := 10, nextToken := "t1" }
          , waitingForTotal := false
          , isFull := false }
      , bar := { total := 10, current := 1 }
      , pendingData := { token := "", index := -1 } }
    (Inner.stepEv s (Inner.Ev.nav 5)).state
        = { s with pendingData :=
            { token := s.api.concatedFound.nextToken, index := 5 } }
    ∧ (Inner.stepEv s (Inner.Ev.nav 5)).cmds = ApiSearch.searchMore s.api
    ∧ (ApiSearch.searchMore s.api).length = 1
    ∧ (Inner.stepEv s (Inner.Ev.nav 5)).navs = []
    ∧ (Inner.stepEv s (Inner.Ev.nav 5)).jumps = []
    ∧ ∀ d : FoundMessages Nat, d.nextToken = s.api.concatedFound.nextToken →
        (Inner.stepEv
          { s with pendingData :=
              { token := s.api.concatedFound.nextToken, index := 5 } }
          (Inner.Ev.primary d)).jumps = [5] :=
  c6_pending_jump_resolution
    { api :=
        { migratedSearch := false
        , migratedFirstFound := FoundMessages.empty
        , concatedFound := { messages := [10, 11, 12], total := 10, nextToken := "t1" }
        , waitingForTotal := false
        , isFull := false }
    , bar := { total := 10, current := 1 }
    , pendingData := { token := "", index := -1 } }
    5 (by decide) (by decide)

/-- C5 counterexample: with a migrated source, a pending jump recorded
during search "a" (index 5 keyed to token "t1") survives the new search
"b": the new search sets `waitingForTotal`, so the fresh primary page of
"b" fires no new-results signal and nothing clears the record (it is
still `{t1, 5}` both after the new request and after that page); when a
continuation of "b" then carries the colliding token "t1", the stale
jump re-fires and navigates to the new search's message at index 5 — a
pending jump recorded for the previous search remained in effect.  (The
nav to 10 is search "a"'s own index-0 auto-navigation on new results.) -/
theorem c5_stale_jump_counterexample :
    let es : List (Inner.Ev Nat) :=
      [Inner.Ev.searchReq { query := "a", fromPeer := none },
       Inner.Ev.primary { messages := [10, 11, 12], total := 10, nextToken := "t1" },
       Inner.Ev.migrated { messages := [], total := 0, nextToken := "tm" },
       Inner.Ev.nav 5,
       Inner.Ev.searchReq { query := "b", fromPeer := none },
       Inner.Ev.primary { messages := [20, 21], total := 8, nextToken := "t1" },
       Inner.Ev.primary { messages := [22, 23, 24, 25], total := 8, nextToken := "t1" }]
    (Inner.runEv (Inner.init Nat true) (es.take 5)).state.pendingData
        = { token := "t1", index := 5 }
    ∧ (Inner.runEv (Inner.init Nat true) (es.take 6)).state.pendingData
        = { token := "t1", index := 5 }
    ∧ (Inner.runEv (Inner.init Nat true) es).jumps = [5]
    ∧ (Inner.runEv (Inner.init Nat true) es).navs = [10, 25] := by
  exact ⟨rfl, rfl, rfl, rfl⟩

theorem handleNav_in_range_clears {α : Type} (s : Inner.State α) (i : Int)
    (ha : 0 ≤ i) (hb : i < (s.api.concatedFound.messages.length : Int)) :
    (Inner.handleNav s i).state.pendingData = { token := "", index := -1 } := by
  simp only [Inner.handleNav]
  rw [if_neg (by omega :
    ¬((s.api.concatedFound.messages.length : Int) ≤ i ∨ i < 0))]

/-- C5 (amended): the pending jump record is cleared when a navigation
intent resolves within the loaded range — including the index-0 intent
that every new-results signal fires through `setTotal`/`setCurrent(1)`
whenever the loaded set is non-empty — and a page arrival re-fires it
only when the accumulator's current token equals the recorded one; the
new search request itself does not erase the record, so while the merger
is still waiting for the migrated total (no new-results signal yet), the
stale record stays armed and can re-fire inside the new search when a
continuation token collides. -/
theorem c5_pending_jump_lifecycle {α : Type} (s : Inner.State α)
    (r : SearchRequest) (i : Int) (d : FoundMessages α) :
    ((Inner.stepEv s (Inner.Ev.searchReq r)).state.pendingData
        = s.pendingData)
    ∧ (0 ≤ i → i < (s.api.concatedFound.messages.length : Int) →
        (Inner.handleNav s i).state.pendingData = { token := "", index := -1 })
    ∧ (s.pendingData.token ≠ s.api.concatedFound.nextToken →
        d.nextToken = s.api.concatedFound.nextToken →
        (Inner.stepEv s (Inner.Ev.primary d)).jumps = [])
    ∧ (0 < s.api.concatedFound.messages.length →
        (Inner.handleNewFounds s).state.pendingData
          = { token := "", index := -1 }) := by
  refine ⟨?_, ?_, ?_, ?_⟩
  · simp only [Inner.stepEv]
    split <;> rfl
  · intro ha hb
    exact handleNav_in_range_clears s i ha hb
  · intro hne hd
    simp only [Inner.stepEv]
    rw [ApiSearch.onPrimaryFound_matching s.api d hd]
    simp only [Inner.processSignals, Inner.handleNextFounds,
      ApiSearch.checkFull_nextToken, ApiSearch.addFound_nextToken]
    simp [hne]
  · intro hpos
    exact handleNav_in_range_clears
      { s with bar := BottomBar.setTotal s.bar s.api.concatedFound.total } 0
      (le_refl 0)
      (show (0 : Int) < (s.api.concatedFound.messages.length : Int) by omega)

/-- C5 witness. -/
theorem c5_pending_jump_lifecycle_witness :
    ((Inner.stepEv
        { api :=
            { migratedSearch := false
            , migratedFirstFound := FoundMessages.empty
            , concatedFound := { messages := [7, 8], total := 9, nextToken := "t" }
            , waitingForTotal := false
            , isFull := false }
        , bar := { total := 9, current := 1 }
        , pendingData := { token := "x", index := 3 } }
        (Inner.Ev.searchReq { query := "q", fromPeer := none })).state.pendingData
      = { token := "x", index := 3 })
    ∧ ((Inner.handleNav
        { api :=
            { migratedSearch := false
            , migratedFirstFound := FoundMessages.empty
            , concatedFound := { messages := [7, 8], total := 9, nextToken := "t" }
            , waitingForTotal := false
            , isFull := false }
        , bar := { total := 9, current := 1 }
        , pendingData := { token := "x", index := 3 } }
        1).state.pendingData = { token := "", index := -1 })
    ∧ ((Inner.stepEv
        { api :=
            { migratedSearch := false
            , migratedFirstFound := FoundMessages.empty
            , concatedFound := { messages := [7, 8], total := 9, nextToken := "t" }
            , waitingForTotal := false
            , isFull := false }
        , bar := { total := 9, current := 1 }
        , pendingData := { token := "x", index := 3 } }
        (Inner.Ev.primary { messages := [9], total := 9, nextToken := "t" })).jumps
      = [])
    ∧ ((Inner.handleNewFounds
        { api :=
            { migratedSearch := false
            , migratedFirstFound := FoundMessages.empty
            , concatedFound := { messages := [7, 8], total := 9, nextToken := "t" }
            , waitingForTotal := false
            , isFull := false }
        , bar := { total := 9, current := 1 }
        , pendingData := { token := "x", index := 3 } }).state.pendingData
      = { token := "", index := -1 }) := by
  refine ⟨?_, ?_, ?_, ?_⟩
  · exact (c5_pending_jump_lifecycle _
      { query := "q", fromPeer := none } 1
      { messages := [9], total := 9, nextToken := "t" }).1
  · exact (c5_pending_jump_lifecycle _
      { query := "q", fromPeer := none } 1
      { messages := [9], total := 9, nextToken := "t" }).2.1
      (by decide) (by decide)
  · exact (c5_pending_jump_lifecycle _
      { query := "q", fromPeer := none } 1
      { messages := [9], total := 9, nextToken := "t" }).2.2.1
      (by decide) (by decide)
  · exact (c5_pending_jump_lifecycle _
      { query := "q", fromPeer := none } 1
      { messages := [9], total := 9, nextToken := "t" }).2.2.2
      (by decide)

theorem onMigratedFound_isFull_true {α : Type} (s : ApiSearch.State α)
    (d : FoundMessages α) (h : s.isFull = true) :
    ApiSearch.onMigratedFound s d
      = (if d.nextToken = s.migratedFirstFound.nextToken then
          (ApiSearch.addFound s d, [Signal.nextFounds])
        else
          ApiSearch.checkWaitingForTotal
            { ApiSearch.addFound s d with migratedFirstFound := d }) := by
  simp [ApiSearch.onMigratedFound, h, ApiSearch.addFound]

theorem onMigratedFound_isFull_false {α : Type} (s : ApiSearch.State α)
    (d : FoundMessages α) (h : s.isFull = false) :
    ApiSearch.onMigratedFound s d
      = (if d.nextToken = s.migratedFirstFound.nextToken then
          (s, [Signal.nextFounds])
        else
          ApiSearch.checkWaitingForTotal { s with migratedFirstFound := d }) := by
  simp [ApiSearch.onMigratedFound, h]

theorem orderingInv_checkWaiting {α : Type} (P : α → Bool)
    (p0 : FoundMessages α) (x : ApiSearch.State α)
    (h : ApiSearch.orderingInv P p0 x) :
    ApiSearch.orderingInv P p0 (ApiSearch.checkWaitingForTotal x).1 := by
  obtain ⟨a, b, c, d2, e⟩ := h
  refine ⟨?_, ?_, ?_, ?_, ?_⟩
  · rw [ApiSearch.checkWaitingForTotal_nextToken]; exact a
  · rw [ApiSearch.checkWaitingForTotal_isFull,
      ApiSearch.checkWaitingForTotal_messages]
    exact b
  · rw [ApiSearch.checkWaitingForTotal_isFull]
    intro hf
    simp only [ApiSearch.primaryLoaded,
      ApiSearch.checkWaitingForTotal_messages]
    simpa only [ApiSearch.primaryLoaded] using c hf
  · rw [ApiSearch.checkWaitingForTotal_migratedFirstFound]; exact d2
  · rw [ApiSearch.checkWaitingForTotal_migratedSearch]; exact e

theorem orderingInv_step {α : Type} (P : α → Bool) (p0 : FoundMessages α)
    (s : ApiSearch.State α) (e : ApiSearch.Event α)
    (hinv : ApiSearch.orderingInv P p0 s)
    (he : ApiSearch.withinSearchOf P p0 e = true) :
    ApiSearch.orderingInv P p0 (ApiSearch.stepEvent s e).1 := by
  obtain ⟨htok, hnotfull, hfull, hmig, hms⟩ := hinv
  cases e with
  | search r => simp [ApiSearch.withinSearchOf] at he
  | clear => simp [ApiSearch.withinSearchOf] at he
  | more => simp [ApiSearch.withinSearchOf] at he
  | primary d =>
      simp only [ApiSearch.withinSearchOf, Bool.and_eq_true, beq_iff_eq,
        List.all_eq_true] at he
      obtain ⟨⟨hdtok, hdtotal⟩, hdP⟩ := he
      have hmatch : d.nextToken = s.concatedFound.nextToken := by
        rw [hdtok, htok]
      show ApiSearch.orderingInv P p0 (ApiSearch.onPrimaryFound s d).1
      rw [ApiSearch.onPrimaryFound_matching s d hmatch]
      show ApiSearch.orderingInv P p0
        (ApiSearch.checkFull (ApiSearch.addFound s d) d)
      have hcntd : d.messages.countP P = d.messages.length :=
        List.countP_eq_length.mpr hdP
      have hcntm : s.migratedFirstFound.messages.countP P = 0 :=
        List.countP_eq_zero.mpr (fun a ha => by rw [hmig a ha]; simp)
      by_cases hc : d.total
          = ((ApiSearch.addFound s d).concatedFound.messages.length : Int)
      · have heq : ApiSearch.checkFull (ApiSearch.addFound s d) d
            = ApiSearch.addFound
                { (ApiSearch.addFound s d) with isFull := true }
                (ApiSearch.addFound s d).migratedFirstFound := by
          simp only [ApiSearch.checkFull]
          rw [if_pos hc]
        have hc' : d.total
            = ((s.concatedFound.messages.length + d.messages.length : Nat) : Int) := by
          rw [hc, ApiSearch.addFound_messages, List.length_append]
        rw [heq]
        refine ⟨?_, ?_, ?_, ?_, ?_⟩
        · rw [ApiSearch.addFound_nextToken]
          show (ApiSearch.addFound s d).concatedFound.nextToken = _
          rw [ApiSearch.addFound_nextToken]; exact htok
        · intro hnf
          exact absurd hnf (by simp [ApiSearch.addFound])
        · intro _
          simp only [ApiSearch.primaryLoaded, ApiSearch.addFound_messages,
            ApiSearch.addFound_migratedFirstFound, List.countP_append]
          show p0.total ≤ ((s.concatedFound.messages.countP P
            + d.messages.countP P
            + s.migratedFirstFound.messages.countP P : Nat) : Int)
          cases hsf : s.isFull with
          | true =>
              have h3 := hfull hsf
              simp only [ApiSearch.primaryLoaded] at h3
              omega
          | false =>
              have h3 : s.concatedFound.messages.countP P
                  = s.concatedFound.messages.length :=
                List.countP_eq_length.mpr (hnotfull hsf)
              omega
        · rw [ApiSearch.addFound_migratedFirstFound]
          show ∀ m ∈ (ApiSearch.addFound s d).migratedFirstFound.messages, _
          rw [ApiSearch.addFound_migratedFirstFound]
          exact hmig
        · rw [ApiSearch.addFound_migratedSearch]
          show (ApiSearch.addFound s d).migratedSearch = true
          rw [ApiSearch.addFound_migratedSearch]; exact hms
      · have heq : ApiSearch.checkFull (ApiSearch.addFound s d) d
            = ApiSearch.addFound s d := by
          simp only [ApiSearch.checkFull]
          rw [if_neg hc]
        rw [heq]
        refine ⟨?_, ?_, ?_, ?_, ?_⟩
        · rw [ApiSearch.addFound_nextToken]; exact htok
        · intro hnf m hm
          rw [ApiSearch.addFound_isFull] at hnf
          rw [ApiSearch.addFound_messages] at hm
          rcases List.mem_append.mp hm with h | h
          · exact hnotfull hnf m h
          · exact hdP m h
        · intro hf
          rw [ApiSearch.addFound_isFull] at hf
          have h3 := hfull hf
          simp only [ApiSearch.primaryLoaded] at h3 ⊢
          rw [ApiSearch.addFound_messages, List.countP_append]
          omega
        · rw [ApiSearch.addFound_migratedFirstFound]; exact hmig
        · rw [ApiSearch.addFound_migratedSearch]; exact hms
  | migrated d =>
      simp only [ApiSearch.withinSearchOf, List.all_eq_true] at he
      have hdP : ∀ m ∈ d.messages, P m = false := by
        intro m hm
        have := he m hm
        revert this
        cases P m <;> simp
      have hstep : (ApiSearch.stepEvent s (ApiSearch.Event.migrated d)).1
          = (ApiSearch.onMigratedFound s d).1 := by
        simp [ApiSearch.stepEvent, hms]
      rw [hstep]
      have hcntd : d.messages.countP P = 0 :=
        List.countP_eq_zero.mpr (fun a ha => by rw [hdP a ha]; simp)
      cases hsf : s.isFull with
      | true =>
          have hs1 : ApiSearch.orderingInv P p0 (ApiSearch.addFound s d) := by
            refine ⟨?_, ?_, ?_, ?_, ?_⟩
            · rw [ApiSearch.addFound_nextToken]; exact htok
            · intro hnf
              rw [ApiSearch.addFound_isFull, hsf] at hnf
              exact absurd hnf (by decide)
            · intro _
              have h3 := hfull hsf
              simp only [ApiSearch.primaryLoaded] at h3 ⊢
              rw [ApiSearch.addFound_messages, List.countP_append]
              omega
            · rw [ApiSearch.addFound_migratedFirstFound]; exact hmig
            · rw [ApiSearch.addFound_migratedSearch]; exact hms
          rw [onMigratedFound_isFull_true s d hsf]
          by_cases ht2 : d.nextToken = s.migratedFirstFound.nextToken
          · rw [if_pos ht2]
            exact hs1
          · rw [if_neg ht2]
            refine orderingInv_checkWaiting P p0 _ ?_
            obtain ⟨a, b, c, _, e2⟩ := hs1
            exact ⟨a, b, c, hdP, e2⟩
      | false =>
          rw [onMigratedFound_isFull_false s d hsf]
          by_cases ht2 : d.nextToken = s.migratedFirstFound.nextToken
          · rw [if_pos ht2]
            exact ⟨htok, hnotfull, hfull, hmig, hms⟩
          · rw [if_neg ht2]
            refine orderingInv_checkWaiting P p0 _ ?_
            exact ⟨htok, hnotfull, hfull, hdP, hms⟩

theorem runEvents_append_state {α : Type} (s : ApiSearch.State α)
    (l1 l2 : List (ApiSearch.Event α)) :
    (ApiSearch.runEvents s (l1 ++ l2)).1
      = (ApiSearch.runEvents (ApiSearch.runEvents s l1).1 l2).1 := by
  induction l1 generalizing s with
  | nil => rfl
  | cons e l1 ih =>
      show (ApiSearch.runEvents (ApiSearch.stepEvent s e).1 (l1 ++ l2)).1 = _
      rw [ih]
      rfl

theorem orderingInv_run {α : Type} (P : α → Bool) (p0 : FoundMessages α)
    (s : ApiSearch.State α) (es : List (ApiSearch.Event α))
    (hinv : ApiSearch.orderingInv P p0 s)
    (hes : ∀ e ∈ es, ApiSearch.withinSearchOf P p0 e = true) :
    ApiSearch.orderingInv P p0 (ApiSearch.runEvents s es).1 := by
  induction es generalizing s with
  | nil => exact hinv
  | cons e es ih =>
      show ApiSearch.orderingInv P p0
        (ApiSearch.runEvents (ApiSearch.stepEvent s e).1 es).1
      exact ih (ApiSearch.stepEvent s e).1
        (orderingInv_step P p0 s e hinv (hes e (List.mem_cons_self e es)))
        (fun e' he' => hes e' (List.mem_cons_of_mem e he'))

theorem orderingInv_base {α : Type} (P : α → Bool) (p0 : FoundMessages α)
    (r : SearchRequest)
    (h0 : p0.nextToken ≠ "") (hp0 : ∀ m ∈ p0.messages, P m = true) :
    ApiSearch.orderingInv P p0
      (ApiSearch.runEvents (ApiSearch.init α true)
        [ApiSearch.Event.clear, ApiSearch.Event.search r,
         ApiSearch.Event.primary p0]).1 := by
  have hred : (ApiSearch.runEvents (ApiSearch.init α true)
      [ApiSearch.Event.clear, ApiSearch.Event.search r,
       ApiSearch.Event.primary p0]).1
      = (ApiSearch.onPrimaryFound
          { migratedSearch := true
          , migratedFirstFound := FoundMessages.empty
          , concatedFound := FoundMessages.empty
          , waitingForTotal := true
          , isFull := false } p0).1 := rfl
  rw [hred]
  have hfresh : ApiSearch.onPrimaryFound
      { migratedSearch := true
      , migratedFirstFound := FoundMessages.empty
      , concatedFound := FoundMessages.empty
      , waitingForTotal := true
      , isFull := false } p0
      = ApiSearch.checkWaitingForTotal (ApiSearch.checkFull
          { migratedSearch := true
          , migratedFirstFound := FoundMessages.empty
          , concatedFound := p0
          , waitingForTotal := true
          , isFull := false } p0) := by
    simp only [ApiSearch.onPrimaryFound]
    rw [if_neg (show ¬(p0.nextToken
      = (FoundMessages.empty (α := α)).nextToken) from h0)]
  rw [hfresh]
  refine orderingInv_checkWaiting P p0 _ ?_
  by_cases hc : p0.total = (p0.messages.length : Int)
  · have heq : ApiSearch.checkFull
        { migratedSearch := true
        , migratedFirstFound := FoundMessages.empty
        , concatedFound := p0
        , waitingForTotal := true
        , isFull := false } p0
        = ApiSearch.addFound
            { migratedSearch := true
            , migratedFirstFound := FoundMessages.empty
            , concatedFound := p0
            , waitingForTotal := true
            , isFull := true } FoundMessages.empty := by
      simp only [ApiSearch.checkFull]
      rw [if_pos hc]
    rw [heq]
    have hlen : p0.messages.countP P = p0.messages.length :=
      List.countP_eq_length.mpr hp0
    refine ⟨rfl, ?_, ?_, ?_, rfl⟩
    · intro hnf
      exact absurd hnf (by simp [ApiSearch.addFound])
    · intro _
      simp only [ApiSearch.primaryLoaded, ApiSearch.addFound_messages,
        FoundMessages.empty, List.append_nil]
      omega
    · intro m hm
      simp [ApiSearch.addFound, FoundMessages.empty] at hm
  · have heq : ApiSearch.checkFull
        { migratedSearch := true
        , migratedFirstFound := FoundMessages.empty
        , concatedFound := p0
        , waitingForTotal := true
        , isFull := false } p0
        = { migratedSearch := true
          , migratedFirstFound := FoundMessages.empty
          , concatedFound := p0
          , waitingForTotal := true
          , isFull := false } := by
      simp only [ApiSearch.checkFull]
      rw [if_neg hc]
    rw [heq]
    refine ⟨rfl, ?_, ?_, ?_, rfl⟩
    · intro _
      exact hp0
    · intro h
      exact absurd h (by simp)
    · intro m hm
      simp [FoundMessages.empty] at hm

theorem onMigratedFound_not_full {α : Type} (s : ApiSearch.State α)
    (d : FoundMessages α) (h : s.isFull = false) :
    (ApiSearch.onMigratedFound s d).1.concatedFound.messages
      = s.concatedFound.messages := by
  rw [onMigratedFound_isFull_false s d h]
  by_cases ht2 : d.nextToken = s.migratedFirstFound.nextToken
  · rw [if_pos ht2]
  · rw [if_neg ht2]
    rw [ApiSearch.checkWaitingForTotal_messages]

/-- C2: within one search — a fresh first primary page `p0` (a known
non-empty token), followed by any interleaving of primary pagination
continuations (matching token, same reported total, primary-tagged
messages) and migrated-source pages (migrated-tagged messages) — no
migrated-source message is present in the combined loaded sequence while
the number `N` of loaded primary messages is below the primary total
`Tp = p0.total`; moreover a migrated page arriving while the merger is
not yet full never changes the loaded sequence (it is held, not
appended). -/
theorem c2_migrated_ordering {α : Type} (P : α → Bool) (r : SearchRequest)
    (p0 : FoundMessages α) (es : List (ApiSearch.Event α))
    (h0 : p0.nextToken ≠ "")
    (hp0 : ∀ m ∈ p0.messages, P m = true)
    (hes : ∀ e ∈ es, ApiSearch.withinSearchOf P p0 e = true) :
    (ApiSearch.primaryLoaded P
        (ApiSearch.runEvents (ApiSearch.init α true)
          ([ApiSearch.Event.clear, ApiSearch.Event.search r,
            ApiSearch.Event.primary p0] ++ es)).1 < p0.total →
      ∀ m ∈ (ApiSearch.runEvents (ApiSearch.init α true)
          ([ApiSearch.Event.clear, ApiSearch.Event.search r,
            ApiSearch.Event.primary p0] ++ es)).1.concatedFound.messages,
        P m = true)
    ∧ (∀ (s : ApiSearch.State α) (d : FoundMessages α), s.isFull = false →
        (ApiSearch.onMigratedFound s d).1.concatedFound.messages
          = s.concatedFound.messages) := by
  constructor
  · rw [runEvents_append_state]
    have hinv := orderingInv_run P p0 _ es
      (orderingInv_base P p0 r h0 hp0) hes
    obtain ⟨-, hnotfull, hfull, -, -⟩ := hinv
    intro hlt
    cases hful : (ApiSearch.runEvents
        (ApiSearch.runEvents (ApiSearch.init α true)
          [ApiSearch.Event.clear, ApiSearch.Event.search r,
           ApiSearch.Event.primary p0]).1 es).1.isFull with
    | true => exact absurd hlt (not_lt.mpr (hfull hful))
    | false => exact hnotfull hful
  · exact fun s d h => onMigratedFound_not_full s d h

/-- C2 witness. -/
theorem c2_migrated_ordering_witness :
    (ApiSearch.primaryLoaded (fun m => decide (m < 10))
        (ApiSearch.runEvents (ApiSearch.init Nat true)
          ([ApiSearch.Event.clear,
            ApiSearch.Event.search { query := "a", fromPeer := none },
            ApiSearch.Event.primary { messages := [0, 1], total := 5, nextToken := "t" }]
            ++ [ApiSearch.Event.migrated { messages := [10], total := 2, nextToken := "tm" },
                ApiSearch.Event.primary { messages := [2], total := 5, nextToken := "t" }])).1
        < ({ messages := [0, 1], total := 5, nextToken := "t" } : FoundMessages Nat).total →
      ∀ m ∈ (ApiSearch.runEvents (ApiSearch.init Nat true)
          ([ApiSearch.Event.clear,
            ApiSearch.Event.search { query := "a", fromPeer := none },
            ApiSearch.Event.primary { messages := [0, 1], total := 5, nextToken := "t" }]
            ++ [ApiSearch.Event.migrated { messages := [10], total := 2, nextToken := "tm" },
                ApiSearch.Event.primary { messages := [2], total := 5, nextToken := "t" }])).1.concatedFound.messages,
        (fun m => decide (m < 10)) m = true)
    ∧ (∀ (s : ApiSearch.State Nat) (d : FoundMessages Nat), s.isFull = false →
        (ApiSearch.onMigratedFound s d).1.concatedFound.messages
          = s.concatedFound.messages) :=
  c2_migrated_ordering (fun m => decide (m < 10))
    { query := "a", fromPeer := none }
    { messages := [0, 1], total := 5, nextToken := "t" }
    [ApiSearch.Event.migrated { messages := [10], total := 2, nextToken := "tm" },
     ApiSearch.Event.primary { messages := [2], total := 5, nextToken := "t" }]
    (by decide) (by decide) (by decide)
